import Mathlib

/-!
# authplaceholder: credential store and session gate

A shallow embedding of `config.go`, `placeholder.go` and `authform.go` of the Go package
`authplaceholder`, followed by theorems about login, token derivation and the request gate.

Conventions of the embedding

* A Go `string` is its byte sequence (`GoString`); `len` is `List.length`, `+` is `++`.
* Library calls are not re-implemented.  `sha256.Sum256`, `bcrypt.CompareHashAndPassword`
  and the execution of the `html/template` page are function parameters of the definitions
  that call them; `os.Open`, the JSON decoder and `os.Hostname` are the fields of `System`.
* A handler `func(w http.ResponseWriter, r *http.Request)` is a function from the writer
  state before the call to the writer state after it.  The downstream handler given to
  `Wrap` additionally threads a state `σ` of its own, so that "the downstream handler was
  not called" can be expressed.
* `http.SetCookie` and `http.Redirect` are recorded as calls: the writer state keeps the
  `http.Cookie` values and the redirect target handed to the library.  `MaxAge` is the field
  of `http.Cookie`.
* `int(lifetime.Seconds())` is computed as Go does, in `float64`: see `Duration.Seconds`.
* `pa.verbose` only prints to standard output; it touches neither the writer nor the
  request and is left out.
-/

namespace authplaceholder

/-! ## Strings and errors -/

/-- Go string: an immutable sequence of bytes. -/
abbrev GoString := List UInt8

/-- The bytes (UTF-8) of a string literal of the source. -/
def lit (s : String) : GoString := s.toUTF8.data.toList

/-- Go `error` values: a plain error carrying its text, or the result of `fmt.Errorf` with a
trailing `%w` verb, which keeps the wrapped error and prints the text before it. -/
inductive GoError where
  | plain (text : GoString)
  | wrapped (before : GoString) (inner : GoError)
  deriving DecidableEq

/-- The method `Error()`: the text of an error. -/
def GoError.Error : GoError → GoString
  | .plain text => text
  | .wrapped before inner => before ++ inner.Error

/-- The function `errors.Unwrap`. -/
def GoError.Unwrap : GoError → Option GoError
  | .plain _ => none
  | .wrapped _ inner => some inner

/-! ## `time.Duration.Seconds` and the conversion `int(float64)`

`createCookie` computes `int(lifetime.Seconds())`.  `Duration.Seconds` is
`float64(d / Second) + float64(d % Second) / 1e9`.  A finite `float64` is modelled by the
rational it denotes and every operation rounds its exact result to the nearest `float64`,
ties to even (IEEE 754 binary64; no value here is large enough to overflow). -/

/-- The rational `2 ^ e` for an integer exponent. -/
def pow2 (e : Int) : ℚ :=
  if 0 ≤ e then ((2 ^ e.toNat : Nat) : ℚ) else 1 / ((2 ^ (-e).toNat : Nat) : ℚ)

/-- Nearest integer, ties to the even one. -/
def roundHalfEven (x : ℚ) : Int :=
  let f := Rat.floor x
  let r := x - f
  if r < 1 / 2 then f else if 1 / 2 < r then f + 1 else if f % 2 = 0 then f else f + 1

/-- Helper of `log2`, recursing on a bound for the number of halvings. -/
def log2Aux : Nat → Nat → Nat
  | 0, _ => 0
  | fuel + 1, n => if n < 2 then 0 else log2Aux fuel (n / 2) + 1

/-- Position of the highest set bit: `⌊log₂ n⌋` for `0 < n`. -/
def log2 (n : Nat) : Nat := log2Aux n n

/-- The integer `⌊log₂ x⌋` for a positive rational. -/
def floorLog2 (x : ℚ) : Int :=
  let k : Int := (log2 x.num.natAbs : Int) - (log2 x.den : Int)
  if pow2 k ≤ x then k else k - 1

/-- Exponent of the last significant bit of the `float64` nearest to `x`: 53 significant
bits, and at least `-1074` (subnormal numbers). -/
def float64Exponent (x : ℚ) : Int := max (floorLog2 |x| - 52) (-1074)

/-- Rounding to binary64: the nearest multiple of `2 ^ float64Exponent x`, ties to even. -/
def roundFloat64 (x : ℚ) : ℚ :=
  if x = 0 then 0 else
    let e := float64Exponent x
    (roundHalfEven (x / pow2 e) : ℚ) * pow2 e

/-- The conversion `float64(n)` of an integer. -/
def float64 (n : Int) : ℚ := roundFloat64 n

/-- The conversion `int(x)` of a `float64`: the fraction is discarded (truncation toward
zero). -/
def goInt (x : ℚ) : Int := if 0 ≤ x then Rat.floor x else -Rat.floor (-x)

/-- Nanoseconds in `time.Second`. -/
def Second : Int := 1000000000

/-- The method `time.Duration.Seconds`, on a duration in nanoseconds. -/
def Duration.Seconds (d : Int) : ℚ :=
  let sec := Int.tdiv d Second
  let nsec := Int.tmod d Second
  roundFloat64 (float64 sec + roundFloat64 (float64 nsec / 1000000000))

/-! ## Data model (`config.go`) -/

/-- User holds the username and hashed password for users that are accepted. -/
structure User where
  Username : GoString
  PasswordHash : GoString
  Token : GoString
  deriving DecidableEq

/-- Lifetime is a `time.Duration` (an `int64` count of nanoseconds) wrapped for JSON. -/
structure Lifetime where
  Duration : Int
  deriving DecidableEq

/-- PlaceholderAuth holds the state of the authentication placeholder. -/
structure PlaceholderAuth where
  CookieName : GoString
  CookieLifetime : Lifetime
  ValidatePath : GoString
  VoidPath : GoString
  AuthTitle : GoString
  Stylesheet : GoString
  Verbose : Bool
  Users : List User
  deriving DecidableEq

/-- The function `defaultValues`. -/
def defaultValues : PlaceholderAuth where
  CookieName := lit "authentimication"
  CookieLifetime := ⟨3600 * Second * 336⟩
  ValidatePath := lit "/auth"
  VoidPath := lit "/logout"
  AuthTitle := lit "Please identify yourself"
  Stylesheet := lit ""
  Verbose := false
  Users := []

/-- Result of `sha256.Sum256`: an array of 32 bytes. -/
structure Digest where
  bytes : List UInt8
  size : bytes.length = 32
  deriving DecidableEq

/-- One lowercase hexadecimal digit. -/
def hexDigit (n : Nat) : UInt8 := if n < 10 then (48 + n).toUInt8 else (87 + n).toUInt8

/-- The formatting `fmt.Sprintf("%x", b)` of a byte array: two lowercase hexadecimal digits
per byte. -/
def hexEncode : List UInt8 → GoString
  | [] => []
  | b :: bs => hexDigit (b.toNat / 16) :: hexDigit (b.toNat % 16) :: hexEncode bs

/-- The string `loadConfiguration` hashes for a user. -/
def hashedString (host : GoString) (user : User) : GoString :=
  user.Username ++ host ++ user.PasswordHash

/-- The loop `for i, user := range pa.Users` of `loadConfiguration`: the users with the
tokens assigned so far, and the error of the first user that is refused. -/
def loadUsers (sum256 : GoString → Digest) (host : GoString) :
    List User → List User × Option GoError
  | [] => ([], none)
  | user :: rest =>
    if user.PasswordHash = [] then
      (user :: rest,
        some (.plain (lit "user " ++ user.Username ++ lit " has no password set")))
    else if user.PasswordHash.length ≠ 60 then
      (user :: rest,
        some (.plain (lit "user " ++ user.Username ++
          lit " does not seem to have a valid bcrypt password")))
    else
      let token := sum256 (user.Username ++ host ++ user.PasswordHash)
      let user := { user with Token := hexEncode token.bytes }
      let tail := loadUsers sum256 host rest
      (user :: tail.1, tail.2)

/-- What the operating system and the JSON decoder answer to `loadConfiguration`:
`os.Open(filename)` (its error), `decoder.Decode(&pa)` on that file (the value of `pa`
afterwards and the error) and `os.Hostname()`. -/
structure System where
  Open : GoString → Option GoError
  Decode : GoString → PlaceholderAuth → PlaceholderAuth × Option GoError
  Hostname : GoString × Option GoError

/-- The function `loadConfiguration`. -/
def loadConfiguration (sum256 : GoString → Digest) (sys : System) (filename : GoString) :
    PlaceholderAuth × Option GoError :=
  let pa := defaultValues
  match sys.Open filename with
  | some err => (pa, some err)
  | none =>
    match sys.Decode filename pa with
    | (pa, some err) => (pa, some err)
    | (pa, none) =>
      match sys.Hostname with
      | (_, some err) => (pa, some err)
      | (host, none) =>
        let loop := loadUsers sum256 host pa.Users
        ({ pa with Users := loop.1 }, loop.2)

/-! ## The HTTP types the handlers use -/

/-- The status code `http.StatusSeeOther`. -/
def StatusSeeOther : Nat := 303

/-- The status code `http.StatusUnauthorized`. -/
def StatusUnauthorized : Nat := 401

/-- The status code `http.StatusInternalServerError`. -/
def StatusInternalServerError : Nat := 500

/-- The values of `http.SameSite`. -/
inductive SameSiteMode where
  | SameSiteDefaultMode
  | SameSiteLaxMode
  | SameSiteStrictMode
  | SameSiteNoneMode
  deriving DecidableEq

/-- The fields of `http.Cookie` that matter for a cookie that is sent; the ones
`createCookie` does not set keep their zero value. -/
structure Cookie where
  Name : GoString
  Value : GoString
  Path : GoString
  Domain : GoString
  MaxAge : Int
  Secure : Bool
  HttpOnly : Bool
  SameSite : SameSiteMode
  deriving DecidableEq

/-- State of an `http.ResponseWriter`: the header lines added, the status code once it is
written, the body bytes, the cookies handed to `http.SetCookie` and the target and code
handed to `http.Redirect`. -/
structure ResponseWriter where
  header : List (GoString × GoString)
  status : Option Nat
  body : GoString
  cookies : List Cookie
  redirect : Option (GoString × Nat)
  deriving DecidableEq

/-- The writer a handler receives for a new request: nothing written yet. -/
def ResponseWriter.fresh : ResponseWriter where
  header := []
  status := none
  body := []
  cookies := []
  redirect := none

/-- The call `w.Header().Add(key, value)`. -/
def ResponseWriter.HeaderAdd (w : ResponseWriter) (key value : GoString) : ResponseWriter :=
  { w with header := w.header ++ [(key, value)] }

/-- The call `w.WriteHeader(code)`: only the first status code counts. -/
def ResponseWriter.WriteHeader (w : ResponseWriter) (code : Nat) : ResponseWriter :=
  match w.status with
  | some _ => w
  | none => { w with status := some code }

/-- The call `w.Write(b)`: writes status 200 first when no status was written. -/
def ResponseWriter.Write (w : ResponseWriter) (b : GoString) : ResponseWriter :=
  let w := w.WriteHeader 200
  { w with body := w.body ++ b }

/-- The call `http.SetCookie(w, cookie)`: the cookie handed to the library, which writes
its `Set-Cookie` line, is recorded. -/
def ResponseWriter.SetCookie (w : ResponseWriter) (cookie : Cookie) : ResponseWriter :=
  { w with cookies := w.cookies ++ [cookie] }

/-- The call `http.Redirect(w, r, url, code)`: the library replies with the status `code`
and a `Location` derived from `url`; the target and the code it was given are recorded. -/
def ResponseWriter.Redirect (w : ResponseWriter) (url : GoString) (code : Nat) :
    ResponseWriter :=
  { w.WriteHeader code with redirect := some (url, code) }

/-- ContextKey is really just a string. -/
abbrev ContextKey := GoString

/-- Result of `r.Cookie(name)`: the cookie (its value), `http.ErrNoCookie`, or another
error. -/
inductive CookieLookup where
  | found (Value : GoString)
  | ErrNoCookie
  | failed (err : GoError)
  deriving DecidableEq

/-- What a handler reads of an `http.Request`: method and URL, `r.FormValue`, `r.Referer()`,
`r.Cookie` and the values of `r.Context()`, most recent first. -/
structure Request where
  Method : GoString
  URL : GoString
  FormValue : GoString → GoString
  Referer : GoString
  Cookie : GoString → CookieLookup
  Context : List (ContextKey × GoString)

/-- The request `r.WithContext(context.WithValue(r.Context(), key, value))`. -/
def Request.WithValue (r : Request) (key : ContextKey) (value : GoString) : Request :=
  { r with Context := (key, value) :: r.Context }

/-- The lookup `r.Context().Value(key)`. -/
def Request.Value (r : Request) (key : ContextKey) : Option GoString :=
  (r.Context.find? (fun kv => kv.1 = key)).map Prod.snd

/-- A downstream `http.HandlerFunc`, with the state `σ` it may read and change. -/
abbrev HandlerFunc (σ : Type) := σ → ResponseWriter → Request → σ × ResponseWriter

/-- Result of `bcrypt.CompareHashAndPassword`: `nil`, the error
`bcrypt.ErrMismatchedHashAndPassword`, or an error that is not a mismatch. -/
inductive CompareResult where
  | accepted
  | ErrMismatchedHashAndPassword
  | failed (err : GoError)
  deriving DecidableEq

/-! ## `authform.go` and `placeholder.go` -/

/-- The method `SendAuthForm`; `page pa` is the output of executing the template `AuthPage`
on `pa`. -/
def SendAuthForm (page : PlaceholderAuth → GoString) (pa : PlaceholderAuth)
    (w : ResponseWriter) : ResponseWriter :=
  ((w.HeaderAdd (lit "Content-Type") (lit "text/html")).WriteHeader StatusUnauthorized).Write
    (page pa)

/-- The loop of the method `validate` over `pa.Users`. -/
def validateLoop (token : GoString) : List User → GoString
  | [] => lit ""
  | user :: rest => if user.Token = token then user.Username else validateLoop token rest

/-- The method `validate`. -/
def validate (pa : PlaceholderAuth) (token : GoString) : GoString :=
  validateLoop token pa.Users

/-- The error `authenticate` returns when the comparison fails for another reason than a
mismatch: `fmt.Errorf("error comparing %s's password to the stored one (%s): %w",
user.Username, user.PasswordHash, err)`. -/
def comparisonError (user : User) (err : GoError) : GoError :=
  .wrapped (lit "error comparing " ++ user.Username ++ lit "'s password to the stored one (" ++
    user.PasswordHash ++ lit "): ") err

/-- The loop of the method `authenticate` over `pa.Users`. -/
def authenticateLoop (compare : GoString → GoString → CompareResult)
    (username password : GoString) : List User → GoString × Option GoError
  | [] => (lit "", none)
  | user :: rest =>
    if username ≠ user.Username then authenticateLoop compare username password rest
    else if user.PasswordHash = lit "" then authenticateLoop compare username password rest
    else
      match compare user.PasswordHash password with
      | .ErrMismatchedHashAndPassword => (lit "", none)
      | .failed err => (lit "", some (comparisonError user err))
      | .accepted => (user.Token, none)

/-- The method `authenticate`. -/
def authenticate (compare : GoString → GoString → CompareResult) (pa : PlaceholderAuth)
    (username password : GoString) : GoString × Option GoError :=
  authenticateLoop compare username password pa.Users

/-- The method `createCookie`. -/
def createCookie (pa : PlaceholderAuth) (token : GoString) (lifetime : Lifetime) : Cookie where
  Name := pa.CookieName
  Value := token
  Path := lit ""
  Domain := lit ""
  MaxAge := goInt (Duration.Seconds lifetime.Duration)
  Secure := false
  HttpOnly := true
  SameSite := .SameSiteLaxMode

/-- The value `returnPath` of both handlers: the Referer, or `/` when it is empty. -/
def returnPath (r : Request) : GoString :=
  if r.Referer = lit "" then lit "/" else r.Referer

/-- The method `validateHandler`. -/
def validateHandler (compare : GoString → GoString → CompareResult) (pa : PlaceholderAuth)
    (w : ResponseWriter) (r : Request) : ResponseWriter :=
  let username := r.FormValue (lit "username")
  let password := r.FormValue (lit "password")
  match authenticate compare pa username password with
  | (_, some err) => (w.WriteHeader StatusInternalServerError).Write err.Error
  | (token, none) =>
    if token = lit "" then
      (w.WriteHeader StatusUnauthorized).Write
        (lit "credential pair presented matches no known user")
    else
      (w.SetCookie (createCookie pa token pa.CookieLifetime)).Redirect (returnPath r)
        StatusSeeOther

/-- The method `voidHandler`. -/
def voidHandler (pa : PlaceholderAuth) (w : ResponseWriter) (r : Request) : ResponseWriter :=
  (w.SetCookie (createCookie pa (lit "") ⟨Second * -5⟩)).Redirect (returnPath r) StatusSeeOther

/-- The method `Wrap`. -/
def Wrap {σ : Type} (page : PlaceholderAuth → GoString) (pa : PlaceholderAuth)
    (next : HandlerFunc σ) : HandlerFunc σ :=
  fun s w r =>
    match r.Cookie pa.CookieName with
    | .ErrNoCookie => (s, SendAuthForm page pa w)
    | .failed _ =>
      (s, (w.WriteHeader StatusInternalServerError).Write (lit "cookie monster ruined your day"))
    | .found token =>
      let user := validate pa token
      if user = lit "" then (s, SendAuthForm page pa w)
      else next s w (r.WithValue (lit "username") user)

/-- The handlers `New` registers: a method value of the loaded `PlaceholderAuth`. -/
inductive Handler where
  | validateHandler (pa : PlaceholderAuth)
  | voidHandler (pa : PlaceholderAuth)
  deriving DecidableEq

/-- The routes of an `http.ServeMux`: patterns with their handlers, in registration order. -/
structure ServeMux where
  routes : List (GoString × Handler)
  deriving DecidableEq

/-- The call `mux.HandleFunc(pattern, handler)`. -/
def ServeMux.HandleFunc (mux : ServeMux) (pattern : GoString) (handler : Handler) : ServeMux :=
  ⟨mux.routes ++ [(pattern, handler)]⟩

/-- The function `New`: the `PlaceholderAuth`, the error, and the mux afterwards. -/
def New (sum256 : GoString → Digest) (sys : System) (mux : ServeMux) (filename : GoString) :
    PlaceholderAuth × Option GoError × ServeMux :=
  match loadConfiguration sum256 sys filename with
  | (pa, some err) =>
    (pa, some (.wrapped (lit "error loading placeholder auth configuration: ") err), mux)
  | (pa, none) =>
    (pa, none,
      (mux.HandleFunc (lit "POST " ++ pa.ValidatePath) (.validateHandler pa)).HandleFunc
        (lit "GET " ++ pa.VoidPath) (.voidHandler pa))

/-! ## Notions used to state the properties -/

/-- The token `loadConfiguration` computes for a user: the hexadecimal form of the SHA-256
digest of username, host name and verifier, concatenated. -/
def sessionToken (sum256 : GoString → Digest) (username host verifier : GoString) : GoString :=
  hexEncode (sum256 (username ++ host ++ verifier)).bytes

/-- The record `authenticate` compares the password with: the first one, in list order,
with the submitted username and a non-empty verifier. -/
def firstMatch (users : List User) (username : GoString) : Option User :=
  users.find? (fun user => decide (user.Username = username) && decide (user.PasswordHash ≠ []))

/-! ## Concrete inputs

Stand-ins for the library functions and a small configuration, used where a statement is
evaluated at a concrete input. -/

/-- A stand-in for `sha256.Sum256` at concrete inputs: 32 copies of the length byte. -/
def exampleSum256 (s : GoString) : Digest := ⟨List.replicate 32 (UInt8.ofNat s.length), by simp⟩

/-- A 60-byte verifier in the format of bcrypt. -/
def exampleHash : GoString := lit "$2a$12$R9h/cIPz0gi.URNNX3kh2OPST9/PgBkqquzi.Ss7KIUgO2t0jWMUW"

/-- A stand-in for `bcrypt.CompareHashAndPassword` at concrete inputs: a verifier that does
not start with `$` is malformed, `exampleHash` accepts the password `abc123xyz`, and
everything else is a mismatch. -/
def exampleCompare (hash password : GoString) : CompareResult :=
  if hash.head? ≠ some 36 then
    .failed (.plain (lit "crypto/bcrypt: bcrypt hashes must start with $"))
  else if hash = exampleHash ∧ password = lit "abc123xyz" then .accepted
  else .ErrMismatchedHashAndPassword

/-- A system whose configuration file decodes to `cfg`, on the host `devbox`. -/
def exampleSystem (cfg : PlaceholderAuth) : System where
  Open := fun _ => none
  Decode := fun _ _ => (cfg, none)
  Hostname := (lit "devbox", none)

/-- The configuration decoded from a file that only lists the given users. -/
def exampleConfig (users : List User) : PlaceholderAuth := { defaultValues with Users := users }

/-- The configuration decoded from a file with the user `alice` and the entry
`"cookie_lifetime": "16777216.999999999s"`. -/
def longLivedConfig : PlaceholderAuth :=
  { defaultValues with
    CookieLifetime := ⟨16777216999999999⟩
    Users := [⟨lit "alice", exampleHash, lit ""⟩] }

/-- A configured user, before `loadConfiguration` assigns the token. -/
def configured (username verifier : GoString) : User := ⟨username, verifier, lit ""⟩

/-- A request with the given form values `username` and `password`, Referer and cookies
(name and value). -/
def exampleRequest (username password referer : GoString)
    (cookies : List (GoString × GoString)) : Request where
  Method := lit "POST"
  URL := lit "/auth"
  FormValue := fun key =>
    if key = lit "username" then username else if key = lit "password" then password
    else lit ""
  Referer := referer
  Cookie := fun name =>
    match cookies.find? (fun c => c.1 = name) with
    | some c => .found c.2
    | none => .ErrNoCookie
  Context := []

/-- A stand-in for the rendering of `AuthPage`: the title and the validation path. -/
def examplePage (pa : PlaceholderAuth) : GoString :=
  lit "<h2>" ++ pa.AuthTitle ++ lit "</h2><form action=" ++ pa.ValidatePath ++ lit ">"

/-- A downstream handler: it counts its calls and writes the username found in the request
context. -/
def exampleNext : HandlerFunc Nat :=
  fun calls w r => (calls + 1, w.Write ((r.Value (lit "username")).getD (lit "")))

/-- The `PlaceholderAuth` that `loadConfiguration` returns for a configuration file with the
given users (and nothing else), on the host `devbox`. -/
def exampleStore (users : List User) : PlaceholderAuth :=
  (loadConfiguration exampleSum256 (exampleSystem (exampleConfig users)) (lit "example.json")).1

/-! ## Lemmas: string literals, hexadecimal encoding -/

theorem lit_empty : lit "" = [] := by decide

theorem hexDigit_injOn : ∀ a < 16, ∀ b < 16, hexDigit a = hexDigit b → a = b := by decide

theorem hexEncode_injective : ∀ xs ys : List UInt8, hexEncode xs = hexEncode ys → xs = ys
  | [], [] => fun _ => rfl
  | [], _ :: _ => fun h => by simp [hexEncode] at h
  | _ :: _, [] => fun h => by simp [hexEncode] at h
  | x :: xs, y :: ys => fun h => by
    simp only [hexEncode, List.cons.injEq] at h
    obtain ⟨h1, h2, h3⟩ := h
    have hx : x.toNat < 256 := x.toNat_lt
    have hy : y.toNat < 256 := y.toNat_lt
    have d1 := hexDigit_injOn _ (by omega) _ (by omega) h1
    have d2 := hexDigit_injOn _ (by omega) _ (by omega) h2
    have hxy : x.toNat = y.toNat := by omega
    have : x = y := UInt8.ext hxy
    rw [this, hexEncode_injective xs ys h3]

theorem sessionToken_eq_iff (sum256 : GoString → Digest) (u h v u' h' v' : GoString) :
    sessionToken sum256 u h v = sessionToken sum256 u' h' v' ↔
      sum256 (u ++ h ++ v) = sum256 (u' ++ h' ++ v') := by
  constructor
  · intro hEq
    have hb := hexEncode_injective _ _ hEq
    cases hd : sum256 (u ++ h ++ v)
    cases hd' : sum256 (u' ++ h' ++ v')
    simp only [hd, hd'] at hb
    subst hb
    rfl
  · intro hEq
    unfold sessionToken
    rw [hEq]

/-! ## Lemmas: `Duration.Seconds` and the `float64` rounding -/

theorem log2_spec (n : Nat) (hn : 0 < n) : 2 ^ log2 n ≤ n ∧ n < 2 ^ (log2 n + 1) := by
  have key : ∀ fuel m : Nat, 0 < m → m ≤ fuel →
      2 ^ log2Aux fuel m ≤ m ∧ m < 2 ^ (log2Aux fuel m + 1) := by
    intro fuel
    induction fuel with
    | zero => intro m hm hle; omega
    | succ fuel ih =>
      intro m hm hle
      unfold log2Aux
      split_ifs with h2
      · constructor <;> simp <;> omega
      · have := ih (m / 2) (by omega) (by omega)
        rw [pow_succ, pow_succ]
        constructor <;> omega
  exact key n n hn le_rfl

theorem pow2_eq_zpow (e : Int) : pow2 e = (2 : ℚ) ^ e := by
  unfold pow2
  split_ifs with h
  · obtain ⟨n, rfl⟩ := Int.eq_ofNat_of_zero_le h
    simp
  · push_neg at h
    obtain ⟨n, hn⟩ := Int.eq_ofNat_of_zero_le (show 0 ≤ -e by omega)
    have he : e = -(n : Int) := by omega
    subst he
    simp

theorem pow2_pos (e : Int) : 0 < pow2 e := by
  rw [pow2_eq_zpow]; positivity

theorem pow2_le_pow2 {a b : Int} (h : a ≤ b) : pow2 a ≤ pow2 b := by
  rw [pow2_eq_zpow, pow2_eq_zpow]
  exact zpow_le_zpow_right₀ (by norm_num) h

theorem pow2_lt_pow2_iff {a b : Int} : pow2 a < pow2 b ↔ a < b := by
  rw [pow2_eq_zpow, pow2_eq_zpow]
  exact zpow_lt_zpow_iff_right₀ (by norm_num)

theorem pow2_sub (a b : Int) : pow2 (a - b) = pow2 a / pow2 b := by
  rw [pow2_eq_zpow, pow2_eq_zpow, pow2_eq_zpow, zpow_sub₀ (by norm_num)]

theorem pow2_add (a b : Int) : pow2 (a + b) = pow2 a * pow2 b := by
  rw [pow2_eq_zpow, pow2_eq_zpow, pow2_eq_zpow, zpow_add₀ (by norm_num)]

theorem pow2_natCast (n : Nat) : pow2 (n : Int) = ((2 ^ n : Nat) : ℚ) := by
  rw [pow2_eq_zpow]; simp

/-- The exponent found by `floorLog2` is not above the logarithm. -/
theorem pow2_floorLog2_le (x : ℚ) (hx : 0 < x) : pow2 (floorLog2 x) ≤ x := by
  unfold floorLog2
  simp only
  split_ifs with h
  · exact h
  · have hnum : 0 < x.num := Rat.num_pos.2 hx
    have hn : 0 < x.num.natAbs := Int.natAbs_pos.2 hnum.ne'
    have hd : 0 < x.den := x.den_pos
    obtain ⟨hn1, -⟩ := log2_spec _ hn
    obtain ⟨-, hd2⟩ := log2_spec _ hd
    have hxeq : x = (x.num.natAbs : ℚ) / (x.den : ℚ) := by
      have h1 : ((x.num.natAbs : Int) : ℚ) = x.num := by
        rw [Int.natAbs_of_nonneg hnum.le]
      rw [← Int.cast_natCast x.num.natAbs, h1]
      exact (Rat.num_div_den x).symm
    have e1 : ((log2 x.num.natAbs : Int) - (log2 x.den : Int) - 1) =
        (log2 x.num.natAbs : Int) - ((log2 x.den + 1 : Nat) : Int) := by push_cast; ring
    rw [e1, pow2_sub, pow2_natCast, pow2_natCast]
    conv_rhs => rw [hxeq]
    have hdq : (0 : ℚ) < x.den := by exact_mod_cast hd
    have hd2q : ((x.den : ℕ) : ℚ) ≤ ((2 ^ (log2 x.den + 1) : ℕ) : ℚ) := by
      exact_mod_cast hd2.le
    have hn1q : ((2 ^ log2 x.num.natAbs : ℕ) : ℚ) ≤ (x.num.natAbs : ℚ) := by
      exact_mod_cast hn1
    have hpos : (0 : ℚ) < ((2 ^ (log2 x.den + 1) : ℕ) : ℚ) := by positivity
    rw [div_le_div_iff₀ hpos hdq]
    calc ((2 ^ log2 x.num.natAbs : ℕ) : ℚ) * x.den
        ≤ (x.num.natAbs : ℚ) * x.den := by
          exact mul_le_mul_of_nonneg_right hn1q hdq.le
      _ ≤ (x.num.natAbs : ℚ) * ((2 ^ (log2 x.den + 1) : ℕ) : ℚ) := by
          exact mul_le_mul_of_nonneg_left hd2q (by positivity)

theorem floorLog2_lt (x : ℚ) (hx : 0 < x) (j : Int) (h : x < pow2 j) : floorLog2 x < j := by
  have := pow2_floorLog2_le x hx
  exact pow2_lt_pow2_iff.1 (lt_of_le_of_lt this h)

theorem floor_eq (z : ℚ) : Rat.floor z = ⌊z⌋ := rfl

theorem le_roundHalfEven (z : ℚ) (n : Int) (h : (n : ℚ) ≤ z) : n ≤ roundHalfEven z := by
  have hf : n ≤ ⌊z⌋ := Int.le_floor.2 h
  unfold roundHalfEven
  simp only [floor_eq]
  split_ifs <;> omega

theorem roundHalfEven_le (z : ℚ) (n : Int) (h : z ≤ (n : ℚ)) : roundHalfEven z ≤ n := by
  have hf1 : ((⌊z⌋ : Int) : ℚ) ≤ z := Int.floor_le z
  have hf : ⌊z⌋ ≤ n := by exact_mod_cast hf1.trans h
  unfold roundHalfEven
  simp only [floor_eq]
  rcases lt_or_eq_of_le hf with hlt | heq
  · split_ifs <;> omega
  · have hz : z - (⌊z⌋ : ℚ) ≤ 0 := by rw [heq]; linarith
    have hz2 : z - (⌊z⌋ : ℚ) < 1 / 2 := by linarith
    rw [if_pos hz2]
    exact hf

theorem roundHalfEven_lt (z : ℚ) (n : Int) (h : z < (n : ℚ) - 1 / 2) :
    roundHalfEven z ≤ n - 1 := by
  have hf1 : ((⌊z⌋ : Int) : ℚ) ≤ z := Int.floor_le z
  have hf : ⌊z⌋ < n := by
    have : ((⌊z⌋ : Int) : ℚ) < n := by linarith
    exact_mod_cast this
  unfold roundHalfEven
  simp only [floor_eq]
  rcases lt_or_eq_of_le (show ⌊z⌋ ≤ n - 1 by omega) with hlt | heq
  · split_ifs <;> omega
  · have hz2 : z - (⌊z⌋ : ℚ) < 1 / 2 := by rw [heq]; push_cast; linarith
    rw [if_pos hz2]
    omega

theorem roundHalfEven_neg (z : ℚ) : roundHalfEven (-z) = -roundHalfEven z := by
  have hf1 : ((⌊z⌋ : Int) : ℚ) ≤ z := Int.floor_le z
  have hf2 : z < (⌊z⌋ : ℚ) + 1 := Int.lt_floor_add_one z
  by_cases hint : z = (⌊z⌋ : ℚ)
  · have h1 : ⌊-z⌋ = -⌊z⌋ := by
      rw [hint, ← Int.cast_neg, Int.floor_intCast, Int.floor_intCast]
    unfold roundHalfEven
    simp only [floor_eq, h1]
    have e1 : -z - ((-⌊z⌋ : Int) : ℚ) = 0 := by push_cast; linarith
    have e2 : z - (⌊z⌋ : ℚ) = 0 := by linarith
    rw [e1, e2]
    norm_num
  · have hlt : (⌊z⌋ : ℚ) < z := lt_of_le_of_ne hf1 (Ne.symm hint)
    have h1 : ⌊-z⌋ = -⌊z⌋ - 1 := by
      rw [Int.floor_eq_iff]
      push_cast
      constructor <;> linarith
    unfold roundHalfEven
    simp only [floor_eq, h1]
    have e1 : -z - ((-⌊z⌋ - 1 : Int) : ℚ) = 1 - (z - (⌊z⌋ : ℚ)) := by push_cast; ring
    rw [e1]
    rcases lt_trichotomy (z - (⌊z⌋ : ℚ)) (1 / 2) with h | h | h
    · have a1 : ¬ (1 - (z - (⌊z⌋ : ℚ)) < 1 / 2) := by linarith
      have a2 : 1 / 2 < 1 - (z - (⌊z⌋ : ℚ)) := by linarith
      rw [if_neg a1, if_pos a2, if_pos h]
      ring
    · rw [h]
      norm_num
      split_ifs <;> omega
    · have a1 : 1 - (z - (⌊z⌋ : ℚ)) < 1 / 2 := by linarith
      have a2 : ¬ (z - (⌊z⌋ : ℚ) < 1 / 2) := by linarith
      rw [if_pos a1, if_neg a2, if_pos h]
      ring

/-- A multiple of `2 ^ E` is an integer multiple of `2 ^ e` for every `e ≤ E`. -/
theorem multiple_div_pow2 (m E e : Int) (he : e ≤ E) :
    ∃ N : Int, (m : ℚ) * pow2 E / pow2 e = N ∧ (m : ℚ) * pow2 E = N * pow2 e := by
  obtain ⟨k, hk⟩ := Int.eq_ofNat_of_zero_le (show 0 ≤ E - e by omega)
  refine ⟨m * 2 ^ k, ?_, ?_⟩
  · have hE : E = e + k := by omega
    have hpos := pow2_pos e
    rw [hE, pow2_add, pow2_natCast]
    push_cast
    field_simp
    ring
  · have hE : E = e + k := by omega
    rw [hE, pow2_add, pow2_natCast]
    push_cast
    ring

theorem roundFloat64_le (x y : ℚ) (m E : Int) (hy : y = m * pow2 E) (hxy : x ≤ y)
    (he : x ≠ 0 → float64Exponent x ≤ E) : roundFloat64 x ≤ y := by
  unfold roundFloat64
  split_ifs with h0
  · rw [h0] at hxy; exact hxy
  · simp only
    obtain ⟨N, hN1, hN2⟩ := multiple_div_pow2 m E _ (he h0)
    have hpos := pow2_pos (float64Exponent x)
    have hz : x / pow2 (float64Exponent x) ≤ N := by
      rw [← hN1, ← hy]
      exact div_le_div_of_nonneg_right hxy hpos.le
    have := roundHalfEven_le _ N hz
    rw [hy, hN2]
    exact mul_le_mul_of_nonneg_right (by exact_mod_cast this) hpos.le

theorem le_roundFloat64 (x y : ℚ) (m E : Int) (hy : y = m * pow2 E) (hxy : y ≤ x)
    (he : x ≠ 0 → float64Exponent x ≤ E) : y ≤ roundFloat64 x := by
  unfold roundFloat64
  split_ifs with h0
  · rw [h0] at hxy; exact hxy
  · simp only
    obtain ⟨N, hN1, hN2⟩ := multiple_div_pow2 m E _ (he h0)
    have hpos := pow2_pos (float64Exponent x)
    have hz : (N : ℚ) ≤ x / pow2 (float64Exponent x) := by
      rw [← hN1, ← hy]
      exact div_le_div_of_nonneg_right hxy hpos.le
    have := le_roundHalfEven _ N hz
    rw [hy, hN2]
    exact mul_le_mul_of_nonneg_right (by exact_mod_cast this) hpos.le

theorem roundFloat64_lt (x y : ℚ) (m E : Int) (hy : y = m * pow2 E)
    (hxy : x < y - pow2 E / 2) (h0 : x ≠ 0) (he : float64Exponent x ≤ E) :
    roundFloat64 x < y := by
  unfold roundFloat64
  rw [if_neg h0]
  simp only
  obtain ⟨N, hN1, hN2⟩ := multiple_div_pow2 m E _ he
  have hpos := pow2_pos (float64Exponent x)
  have hle : pow2 (float64Exponent x) ≤ pow2 E := pow2_le_pow2 he
  have hz : x / pow2 (float64Exponent x) < (N : ℚ) - 1 / 2 := by
    rw [← hN1, ← hy, div_lt_iff₀ hpos]
    have : (y / pow2 (float64Exponent x) - 1 / 2) * pow2 (float64Exponent x) =
        y - pow2 (float64Exponent x) / 2 := by
      field_simp
      ring
    rw [this]
    linarith
  have h1 := roundHalfEven_lt _ N hz
  have h2 : ((roundHalfEven (x / pow2 (float64Exponent x)) : Int) : ℚ) ≤ (N : ℚ) - 1 := by
    exact_mod_cast h1
  rw [hy, hN2]
  have : ((roundHalfEven (x / pow2 (float64Exponent x)) : Int) : ℚ) *
      pow2 (float64Exponent x) ≤ ((N : ℚ) - 1) * pow2 (float64Exponent x) :=
    mul_le_mul_of_nonneg_right h2 hpos.le
  linarith

theorem float64Exponent_le (x : ℚ) (h0 : x ≠ 0) (j : Int) (hj : -1021 ≤ j)
    (h : |x| < pow2 j) : float64Exponent x ≤ j - 53 := by
  unfold float64Exponent
  have := floorLog2_lt |x| (abs_pos.2 h0) j h
  apply max_le <;> omega

theorem floor_intCast (z : Int) : Rat.floor (z : ℚ) = z := by
  simp [Rat.floor]

theorem roundHalfEven_intCast (z : Int) : roundHalfEven (z : ℚ) = z := by
  simp [roundHalfEven, floor_intCast]

/-- Integers below `2 ^ 53` in absolute value are `float64` values. -/
theorem roundFloat64_intCast (n : Int) (h : |n| < 2 ^ 53) : roundFloat64 (n : ℚ) = n := by
  have hn : ((n : Int) : ℚ) = n * pow2 0 := by simp [pow2]
  have he : (n : ℚ) ≠ 0 → float64Exponent (n : ℚ) ≤ 0 := by
    intro h0
    have habs : |(n : ℚ)| < pow2 53 := by
      rw [← Int.cast_abs, show pow2 53 = ((2 ^ 53 : Int) : ℚ) by simp [pow2]]
      exact_mod_cast h
    have := float64Exponent_le _ h0 53 (by norm_num) habs
    omega
  exact le_antisymm (roundFloat64_le _ _ n 0 hn le_rfl he) (le_roundFloat64 _ _ n 0 hn le_rfl he)

theorem roundFloat64_neg (x : ℚ) : roundFloat64 (-x) = -roundFloat64 x := by
  unfold roundFloat64
  by_cases h0 : x = 0
  · simp [h0]
  · have h1 : -x ≠ 0 := neg_ne_zero.2 h0
    have he : float64Exponent (-x) = float64Exponent x := by
      unfold float64Exponent
      rw [abs_neg]
    rw [if_neg h0, if_neg h1]
    simp only [he, neg_div, roundHalfEven_neg]
    push_cast
    ring

theorem goInt_neg (x : ℚ) : goInt (-x) = -goInt x := by
  unfold goInt
  rcases lt_trichotomy x 0 with h | h | h
  · have h1 : 0 ≤ -x := by linarith
    have h2 : ¬ 0 ≤ x := by linarith
    rw [if_pos h1, if_neg h2]
    ring
  · subst h
    simp [Rat.floor]
  · have h1 : ¬ 0 ≤ -x := by linarith
    have h2 : 0 ≤ x := by linarith
    rw [if_neg h1, if_pos h2, neg_neg]

theorem neg_tmod (a b : Int) : (-a).tmod b = -(a.tmod b) := by
  rw [Int.tmod_def, Int.tmod_def, Int.neg_tdiv]
  ring

theorem Seconds_neg (d : Int) : Duration.Seconds (-d) = -Duration.Seconds d := by
  unfold Duration.Seconds float64
  simp only [Int.neg_tdiv, neg_tmod, Int.cast_neg, roundFloat64_neg, neg_div]
  rw [← neg_add, roundFloat64_neg]

/-- For a lifetime from 0 to below `2 ^ 24` seconds the conversion is exact. -/
theorem Seconds_trunc_nonneg (d : Int) (h0 : 0 ≤ d) (h : d < 2 ^ 24 * 1000000000) :
    goInt (Duration.Seconds d) = Int.tdiv d 1000000000 := by
  have hd : Int.tdiv d Second = d / 1000000000 := Int.tdiv_eq_ediv h0 (by decide)
  have hm : Int.tmod d Second = d % 1000000000 := Int.tmod_eq_emod h0 (by decide)
  have hd2 : Int.tdiv d 1000000000 = d / 1000000000 := hd
  have hsec0 : 0 ≤ d / 1000000000 := by omega
  have hsec1 : d / 1000000000 < 2 ^ 24 := by omega
  have hns0 : 0 ≤ d % 1000000000 := by omega
  have hns1 : d % 1000000000 ≤ 999999999 := by omega
  unfold Duration.Seconds float64
  simp only [hd, hm, hd2]
  generalize d / 1000000000 = sec at hsec0 hsec1
  generalize d % 1000000000 = nsec at hns0 hns1
  rw [roundFloat64_intCast sec (by rw [abs_lt]; constructor <;> omega),
    roundFloat64_intCast nsec (by rw [abs_lt]; constructor <;> omega)]
  have hp53 : pow2 (-53) = 1 / 2 ^ 53 := by
    rw [pow2_eq_zpow, show (-53 : Int) = -((53 : Nat) : Int) from rfl, zpow_neg, zpow_natCast,
      one_div]
  have hp29 : pow2 (-29) = 1 / 2 ^ 29 := by
    rw [pow2_eq_zpow, show (-29 : Int) = -((29 : Nat) : Int) from rfl, zpow_neg, zpow_natCast,
      one_div]
  have hp0 : pow2 0 = 1 := by simp [pow2]
  have hp24 : pow2 24 = 2 ^ 24 := by
    rw [pow2_eq_zpow, show (24 : Int) = ((24 : Nat) : Int) from rfl, zpow_natCast]
  have hnsq0 : (0 : ℚ) ≤ (nsec : ℚ) := by exact_mod_cast hns0
  have hnsq1 : (nsec : ℚ) ≤ 999999999 := by exact_mod_cast hns1
  have hsq0 : (0 : ℚ) ≤ (sec : ℚ) := by exact_mod_cast hsec0
  have hsq1 : (sec : ℚ) ≤ 2 ^ 24 - 1 := by
    have : sec ≤ 2 ^ 24 - 1 := by omega
    exact_mod_cast this
  -- the fraction
  have hx0 : (0 : ℚ) ≤ (nsec : ℚ) / 1000000000 := by positivity
  have hx1 : (nsec : ℚ) / 1000000000 ≤ 999999999 / 1000000000 := by
    apply div_le_div_of_nonneg_right hnsq1 (by norm_num)
  have hf0 : 0 ≤ roundFloat64 ((nsec : ℚ) / 1000000000) :=
    le_roundFloat64 _ 0 0 (float64Exponent ((nsec : ℚ) / 1000000000)) (by simp) hx0
      (fun _ => le_rfl)
  have hf1 : roundFloat64 ((nsec : ℚ) / 1000000000) ≤
      ((2 ^ 53 - 2 ^ 23 - 1 : Int) : ℚ) * pow2 (-53) := by
    apply roundFloat64_le _ _ (2 ^ 53 - 2 ^ 23 - 1) (-53) rfl
    · rw [hp53]; push_cast; norm_num; linarith
    · intro hne
      have habs : |(nsec : ℚ) / 1000000000| < pow2 0 := by
        rw [abs_of_nonneg hx0, hp0]; linarith
      have := float64Exponent_le _ hne 0 (by norm_num) habs
      omega
  rw [hp53] at hf1
  push_cast at hf1
  generalize roundFloat64 ((nsec : ℚ) / 1000000000) = f at hf0 hf1
  -- the sum
  by_cases hs : (sec : ℚ) + f = 0
  · have hsec : (sec : ℚ) = 0 := by linarith
    have : sec = 0 := by exact_mod_cast hsec
    subst this
    rw [hs]
    simp [roundFloat64, goInt, Rat.floor]
  · have habs : |(sec : ℚ) + f| < pow2 24 := by
      rw [abs_of_nonneg (by linarith), hp24]
      norm_num at hf1 ⊢
      linarith
    have hexp := float64Exponent_le _ hs 24 (by norm_num) habs
    have hlo : (sec : ℚ) ≤ roundFloat64 ((sec : ℚ) + f) :=
      le_roundFloat64 _ _ sec 0 (by rw [hp0]; ring) (by linarith) (fun _ => by omega)
    have hhi : roundFloat64 ((sec : ℚ) + f) < (sec : ℚ) + 1 := by
      apply roundFloat64_lt _ _ ((sec + 1) * 2 ^ 29) (-29)
      · rw [hp29]; push_cast; ring
      · rw [hp29]; norm_num at hf1 ⊢; linarith
      · exact hs
      · omega
    have hnn : 0 ≤ roundFloat64 ((sec : ℚ) + f) := by linarith
    unfold goInt
    rw [if_pos hnn, floor_eq, Int.floor_eq_iff]
    exact ⟨hlo, hhi⟩

/-- Below `2 ^ 24` seconds (about 194 days) `int(d.Seconds())` is the quotient of the
nanosecond count by `10 ^ 9`, truncated toward zero. -/
theorem Seconds_trunc (d : Int) (h : |d| < 2 ^ 24 * 1000000000) :
    goInt (Duration.Seconds d) = Int.tdiv d 1000000000 := by
  rw [abs_lt] at h
  rcases le_total 0 d with h0 | h0
  · exact Seconds_trunc_nonneg d h0 h.2
  · have := Seconds_trunc_nonneg (-d) (by omega) (by omega)
    rw [Seconds_neg, goInt_neg, Int.neg_tdiv] at this
    omega

theorem goInt_intCast (z : Int) : goInt (z : ℚ) = z := by
  unfold goInt
  split_ifs
  · exact floor_intCast z
  · rw [← Int.cast_neg, floor_intCast]; simp

theorem Seconds_whole (s : Int) (h : |s| < 2 ^ 53) :
    goInt (Duration.Seconds (s * Second)) = s := by
  have h0 : roundFloat64 0 = 0 := by simp [roundFloat64]
  have hd : Int.tdiv (s * Second) Second = s := Int.mul_tdiv_cancel s (by decide)
  have hm : Int.tmod (s * Second) Second = 0 := by
    simp [Int.tmod_eq_zero_of_dvd]
  unfold Duration.Seconds float64
  simp only [hd, hm, Int.cast_zero, h0, zero_div, add_zero]
  rw [roundFloat64_intCast s h, roundFloat64_intCast s h, goInt_intCast]

theorem voidLifetime_seconds : goInt (Duration.Seconds (Second * -5)) = -5 := by
  rw [Seconds_trunc _ (by decide)]
  decide

/-- The `float64` nearest to one tenth is `0x3FB999999999999A`. -/
theorem roundFloat64_tenth : roundFloat64 (1 / 10) = 3602879701896397 / 2 ^ 55 := by decide!

/-! ## Lemmas: `loadConfiguration` -/

theorem loadUsers_error_iff (sum256 : GoString → Digest) (host : GoString) (users : List User) :
    (loadUsers sum256 host users).2 = none ↔ ∀ u ∈ users, u.PasswordHash.length = 60 := by
  induction users with
  | nil => simp [loadUsers]
  | cons user rest ih =>
    by_cases h0 : user.PasswordHash = []
    · simp [loadUsers, h0]
    · by_cases h60 : user.PasswordHash.length = 60
      · simp [loadUsers, h0, h60, ih]
      · simp [loadUsers, h0, h60]

theorem loadUsers_users (sum256 : GoString → Digest) (host : GoString) (users : List User)
    (h : (loadUsers sum256 host users).2 = none) :
    (loadUsers sum256 host users).1 = users.map (fun u =>
      { u with Token := sessionToken sum256 u.Username host u.PasswordHash }) := by
  induction users with
  | nil => simp [loadUsers]
  | cons user rest ih =>
    by_cases h0 : user.PasswordHash = []
    · simp [loadUsers, h0] at h
    · by_cases h60 : user.PasswordHash.length = 60
      · simp only [loadUsers, h0, h60] at h ⊢
        simp only [if_false, ne_eq, not_true_eq_false, List.map_cons] at h ⊢
        rw [ih h]
        rfl
      · simp [loadUsers, h0, h60] at h

/-- A successful `loadConfiguration` decoded some configuration without error, obtained a
host name, and returns that configuration with a token on every user. -/
theorem loadConfiguration_ok (sum256 : GoString → Digest) (sys : System) (filename : GoString)
    (pa : PlaceholderAuth) (h : loadConfiguration sum256 sys filename = (pa, none)) :
    ∃ cfg, sys.Open filename = none ∧ sys.Decode filename defaultValues = (cfg, none) ∧
      sys.Hostname.2 = none ∧ (∀ u ∈ cfg.Users, u.PasswordHash.length = 60) ∧
      pa = { cfg with Users := cfg.Users.map (fun u =>
        { u with Token := sessionToken sum256 u.Username sys.Hostname.1 u.PasswordHash }) } := by
  unfold loadConfiguration at h
  cases hopen : sys.Open filename with
  | some e => simp [hopen] at h
  | none =>
    rcases hdec : sys.Decode filename defaultValues with ⟨cfg, _ | e⟩
    · rcases hhost : sys.Hostname with ⟨host, _ | e⟩
      · simp only [hopen, hdec, hhost, Prod.mk.injEq] at h
        obtain ⟨h1, h2⟩ := h
        refine ⟨cfg, rfl, rfl, rfl, (loadUsers_error_iff _ _ _).1 h2, ?_⟩
        rw [← h1, loadUsers_users _ _ _ h2]
      · simp [hopen, hdec, hhost] at h
    · simp [hopen, hdec] at h

/-- Store invariant after a successful `loadConfiguration`. -/
theorem loadConfiguration_store (sum256 : GoString → Digest) (sys : System)
    (filename : GoString) (pa : PlaceholderAuth)
    (h : loadConfiguration sum256 sys filename = (pa, none)) :
    ∀ u ∈ pa.Users, u.PasswordHash.length = 60 ∧
      u.Token = sessionToken sum256 u.Username sys.Hostname.1 u.PasswordHash := by
  obtain ⟨cfg, -, -, -, h60, rfl⟩ := loadConfiguration_ok sum256 sys filename pa h
  intro u hu
  simp only [List.mem_map] at hu
  obtain ⟨c, hc, rfl⟩ := hu
  exact ⟨h60 c hc, rfl⟩

/-! ## Lemmas: `authenticate` and `validate` -/

theorem firstMatch_split (users : List User) (username : GoString) (user : User)
    (h : firstMatch users username = some user) :
    user.Username = username ∧ user.PasswordHash ≠ [] ∧
      ∃ pre post, users = pre ++ user :: post ∧
        ∀ x ∈ pre, ¬(x.Username = username ∧ x.PasswordHash ≠ []) := by
  unfold firstMatch at h
  rw [List.find?_eq_some] at h
  obtain ⟨hp, pre, post, hsplit, hpre⟩ := h
  simp only [Bool.and_eq_true, decide_eq_true_eq] at hp
  refine ⟨hp.1, hp.2, pre, post, hsplit, ?_⟩
  intro x hx hx2
  have := hpre x hx
  simp [hx2.1, hx2.2] at this

theorem firstMatch_append (pre post : List User) (username : GoString) (user : User)
    (hpre : ∀ x ∈ pre, ¬(x.Username = username ∧ x.PasswordHash ≠ []))
    (hu : user.Username = username) (hv : user.PasswordHash ≠ []) :
    firstMatch (pre ++ user :: post) username = some user := by
  unfold firstMatch
  rw [List.find?_append]
  have hnone : List.find? (fun user => decide (user.Username = username) &&
      decide (user.PasswordHash ≠ [])) pre = none := by
    rw [List.find?_eq_none]
    intro x hx
    have := hpre x hx
    simpa using this
  rw [hnone]
  simp [List.find?_cons, hu, hv]

/-- The loop of `authenticate` consults one record only: the first match. -/
theorem authenticateLoop_eq (compare : GoString → GoString → CompareResult)
    (username password : GoString) (users : List User) :
    authenticateLoop compare username password users =
      match firstMatch users username with
      | none => ([], none)
      | some user =>
        match compare user.PasswordHash password with
        | .accepted => (user.Token, none)
        | .ErrMismatchedHashAndPassword => ([], none)
        | .failed err => ([], some (comparisonError user err)) := by
  induction users with
  | nil => simp [authenticateLoop, firstMatch, lit_empty]
  | cons user rest ih =>
    by_cases hu : username = user.Username
    · by_cases hv : user.PasswordHash = []
      · have hf : firstMatch (user :: rest) username = firstMatch rest username := by
          simp [firstMatch, List.find?_cons, hv]
        rw [hf, ← ih]
        simp [authenticateLoop, hu, hv, lit_empty]
      · have hf : firstMatch (user :: rest) username = some user := by
          simp [firstMatch, List.find?_cons, hv, hu]
        rw [hf]
        simp only [authenticateLoop, hu, lit_empty, hv, ne_eq, not_true_eq_false, if_false]
        cases compare user.PasswordHash password <;> rfl
    · have hf : firstMatch (user :: rest) username = firstMatch rest username := by
        have : ¬ user.Username = username := fun h => hu h.symm
        simp [firstMatch, List.find?_cons, this]
      rw [hf, ← ih]
      simp [authenticateLoop, hu]

theorem authenticate_eq (compare : GoString → GoString → CompareResult) (pa : PlaceholderAuth)
    (username password : GoString) :
    authenticate compare pa username password =
      match firstMatch pa.Users username with
      | none => ([], none)
      | some user =>
        match compare user.PasswordHash password with
        | .accepted => (user.Token, none)
        | .ErrMismatchedHashAndPassword => ([], none)
        | .failed err => ([], some (comparisonError user err)) :=
  authenticateLoop_eq compare username password pa.Users

theorem firstMatch_none_of_absent (users : List User) (username : GoString)
    (h : ∀ u ∈ users, u.Username ≠ username) : firstMatch users username = none := by
  unfold firstMatch
  rw [List.find?_eq_none]
  intro x hx
  simp [h x hx]

theorem validateLoop_absent (token : GoString) (users : List User)
    (h : ∀ u ∈ users, u.Token ≠ token) : validateLoop token users = [] := by
  induction users with
  | nil => simp [validateLoop, lit_empty]
  | cons x rest ih =>
    have hx : x.Token ≠ token := h x (List.mem_cons_self _ _)
    simp only [validateLoop, hx, if_false]
    exact ih (fun u hu => h u (List.mem_cons_of_mem _ hu))

theorem validateLoop_of_mem (users : List User) (user : User) (hmem : user ∈ users)
    (hsame : ∀ x ∈ users, x.Token = user.Token → x.Username = user.Username) :
    validateLoop user.Token users = user.Username := by
  induction users with
  | nil => simp at hmem
  | cons x rest ih =>
    by_cases hx : x.Token = user.Token
    · simp only [validateLoop, hx, if_true]
      exact hsame x (List.mem_cons_self _ _) hx
    · simp only [validateLoop, hx, if_false]
      rcases List.mem_cons.1 hmem with rfl | hrest
      · exact absurd rfl hx
      · exact ih hrest (fun y hy => hsame y (List.mem_cons_of_mem _ hy))

/-- With verifiers of equal length, the hashed string determines username and verifier. -/
theorem hashedString_injective (host : GoString) (a b : User)
    (hlen : a.PasswordHash.length = b.PasswordHash.length)
    (h : hashedString host a = hashedString host b) :
    a.Username = b.Username ∧ a.PasswordHash = b.PasswordHash := by
  unfold hashedString at h
  obtain ⟨h1, h2⟩ := List.append_inj' h hlen
  exact ⟨List.append_cancel_right h1, h2⟩

/-- In a loaded store without digest collisions, records with equal tokens have equal
usernames. -/
theorem loaded_token_determines_username (sum256 : GoString → Digest) (sys : System)
    (filename : GoString) (pa : PlaceholderAuth)
    (hload : loadConfiguration sum256 sys filename = (pa, none))
    (hinj : ∀ a ∈ pa.Users, ∀ b ∈ pa.Users,
      sum256 (hashedString sys.Hostname.1 a) = sum256 (hashedString sys.Hostname.1 b) →
        hashedString sys.Hostname.1 a = hashedString sys.Hostname.1 b)
    (a b : User) (ha : a ∈ pa.Users) (hb : b ∈ pa.Users) (htok : a.Token = b.Token) :
    a.Username = b.Username ∧ a.PasswordHash = b.PasswordHash := by
  have hsa := loadConfiguration_store sum256 sys filename pa hload a ha
  have hsb := loadConfiguration_store sum256 sys filename pa hload b hb
  rw [hsa.2, hsb.2, sessionToken_eq_iff] at htok
  exact hashedString_injective _ a b (by rw [hsa.1, hsb.1]) (hinj a ha b hb htok)

theorem fresh_WriteHeader_Write (code : Nat) (b : GoString) :
    (ResponseWriter.fresh.WriteHeader code).Write b =
      { header := [], status := some code, body := b, cookies := [], redirect := none } := rfl

/-! ## C4: construction validates the verifiers -/

/-- C4. Given a configuration file that decodes (to `cfg`) and a host name obtained without
error, `loadConfiguration` returns an error if and only if some configured user has a
verifier that is empty or not exactly 60 bytes long.  And whenever `loadConfiguration`
returns an error `err`, `New` returns it, wrapped by `fmt.Errorf` with `%w` behind the text
"error loading placeholder auth configuration: ", and leaves the mux as it was: neither the
validation route nor the void route is registered. -/
theorem loadConfiguration_validates_verifiers (sum256 : GoString → Digest) (sys : System)
    (filename : GoString) (cfg : PlaceholderAuth) (host : GoString)
    (hopen : sys.Open filename = none)
    (hdec : sys.Decode filename defaultValues = (cfg, none))
    (hhost : sys.Hostname = (host, none)) :
    ((loadConfiguration sum256 sys filename).2 ≠ none ↔
        ∃ u ∈ cfg.Users, u.PasswordHash = [] ∨ u.PasswordHash.length ≠ 60) ∧
      ∀ (sys' : System) (mux : ServeMux) (name : GoString) (err : GoError),
        (loadConfiguration sum256 sys' name).2 = some err →
          New sum256 sys' mux name = ((loadConfiguration sum256 sys' name).1,
            some (.wrapped (lit "error loading placeholder auth configuration: ") err), mux) ∧
          (New sum256 sys' mux name).2.1.bind GoError.Unwrap = some err := by
  constructor
  · have hl : (loadConfiguration sum256 sys filename).2 = (loadUsers sum256 host cfg.Users).2 := by
      simp [loadConfiguration, hopen, hdec, hhost]
    rw [hl, Ne, loadUsers_error_iff]
    constructor
    · intro h
      by_contra hne
      apply h
      intro u hu
      by_contra h60
      exact hne ⟨u, hu, Or.inr h60⟩
    · rintro ⟨u, hu, h0 | h60⟩ hall
      · have := hall u hu
        simp [h0] at this
      · exact h60 (hall u hu)
  · intro sys' mux name err herr
    unfold New
    rcases hload : loadConfiguration sum256 sys' name with ⟨pa, _ | e⟩
    · simp [hload] at herr
    · simp only [hload, Option.some.injEq] at herr
      subst herr
      exact ⟨rfl, rfl⟩

/-- C4 at a concrete input: one user whose verifier has 3 bytes. -/
theorem loadConfiguration_validates_verifiers_witness :
    ((loadConfiguration exampleSum256
          (exampleSystem (exampleConfig [configured (lit "alice") (lit "abc")]))
          (lit "example.json")).2 ≠ none ↔
        ∃ u ∈ (exampleConfig [configured (lit "alice") (lit "abc")]).Users,
          u.PasswordHash = [] ∨ u.PasswordHash.length ≠ 60) ∧
      ∀ (sys' : System) (mux : ServeMux) (name : GoString) (err : GoError),
        (loadConfiguration exampleSum256 sys' name).2 = some err →
          New exampleSum256 sys' mux name = ((loadConfiguration exampleSum256 sys' name).1,
            some (.wrapped (lit "error loading placeholder auth configuration: ") err), mux) ∧
          (New exampleSum256 sys' mux name).2.1.bind GoError.Unwrap = some err :=
  loadConfiguration_validates_verifiers exampleSum256
    (exampleSystem (exampleConfig [configured (lit "alice") (lit "abc")])) (lit "example.json")
    (exampleConfig [configured (lit "alice") (lit "abc")]) (lit "devbox")
    rfl rfl rfl

/-! ## C10: authentication soundness -/

/-- C10. If `authenticate` returns a non-empty token and no error, then the store splits as
`pre ++ user :: post` where `user` is the first record, in list order, whose `Username` is
the submitted one and whose verifier is non-empty; the comparison accepted the submitted
password against the verifier of `user`; the token returned is `user.Token` (the token of a
record with the submitted username); and the records after `user` are never consulted: the
result is the same whatever follows `user` in the list. -/
theorem authenticate_sound (compare : GoString → GoString → CompareResult)
    (pa : PlaceholderAuth) (username password token : GoString)
    (h : authenticate compare pa username password = (token, none)) (hne : token ≠ []) :
    ∃ user pre post, pa.Users = pre ++ user :: post ∧
      (∀ x ∈ pre, ¬(x.Username = username ∧ x.PasswordHash ≠ [])) ∧
      user.Username = username ∧ user.PasswordHash ≠ [] ∧
      compare user.PasswordHash password = .accepted ∧
      token = user.Token ∧
      ∀ post', authenticate compare { pa with Users := pre ++ user :: post' }
        username password = (token, none) := by
  rw [authenticate_eq] at h
  cases hfm : firstMatch pa.Users username with
  | none =>
    simp only [hfm, Prod.mk.injEq] at h
    exact absurd h.1.symm hne
  | some user =>
    obtain ⟨hu, hv, pre, post, hsplit, hpre⟩ := firstMatch_split _ _ _ hfm
    cases hc : compare user.PasswordHash password with
    | accepted =>
      simp only [hfm, hc, Prod.mk.injEq] at h
      refine ⟨user, pre, post, hsplit, hpre, hu, hv, hc, h.1.symm, ?_⟩
      intro post'
      rw [authenticate_eq]
      simp only [firstMatch_append pre post' username user hpre hu hv, hc, h.1]
    | ErrMismatchedHashAndPassword =>
      simp only [hfm, hc, Prod.mk.injEq] at h
      exact absurd h.1.symm hne
    | failed err =>
      simp [hfm, hc] at h

/-- C10 at a concrete input: `bob` logs in on a store of two users. -/
theorem authenticate_sound_witness :
    ∃ user pre post,
      (exampleStore [configured (lit "alice") exampleHash,
        configured (lit "bob") exampleHash]).Users = pre ++ user :: post ∧
      (∀ x ∈ pre, ¬(x.Username = lit "bob" ∧ x.PasswordHash ≠ [])) ∧
      user.Username = lit "bob" ∧ user.PasswordHash ≠ [] ∧
      exampleCompare user.PasswordHash (lit "abc123xyz") = .accepted ∧
      sessionToken exampleSum256 (lit "bob") (lit "devbox") exampleHash = user.Token ∧
      ∀ post', authenticate exampleCompare
        { exampleStore [configured (lit "alice") exampleHash,
            configured (lit "bob") exampleHash] with Users := pre ++ user :: post' }
        (lit "bob") (lit "abc123xyz") =
          (sessionToken exampleSum256 (lit "bob") (lit "devbox") exampleHash, none) :=
  authenticate_sound exampleCompare
    (exampleStore [configured (lit "alice") exampleHash, configured (lit "bob") exampleHash])
    (lit "bob") (lit "abc123xyz")
    (sessionToken exampleSum256 (lit "bob") (lit "devbox") exampleHash)
    (by decide) (by decide)

/-! ## C2: a failed login does not tell whether the username exists -/

/-- C2. Take any store and two login submissions: `r1` names a username that occurs in no
record, `r2` names a username for which the record `authenticate` consults (the first one
with that username and a non-empty verifier) exists and the comparison of the submitted
password with its verifier reports a mismatch.  Then `validateHandler` writes the same
response for both: status 401 with the body "credential pair presented matches no known
user", and no cookie (from a fresh writer: no header line, no cookie, no redirect). -/
theorem login_failure_indistinguishable (compare : GoString → GoString → CompareResult)
    (pa : PlaceholderAuth) (w : ResponseWriter) (r1 r2 : Request) (user : User)
    (habsent : ∀ u ∈ pa.Users, u.Username ≠ r1.FormValue (lit "username"))
    (hfirst : firstMatch pa.Users (r2.FormValue (lit "username")) = some user)
    (hmismatch : compare user.PasswordHash (r2.FormValue (lit "password")) =
      .ErrMismatchedHashAndPassword) :
    validateHandler compare pa w r1 = validateHandler compare pa w r2 ∧
      validateHandler compare pa w r1 = (w.WriteHeader StatusUnauthorized).Write
        (lit "credential pair presented matches no known user") ∧
      validateHandler compare pa ResponseWriter.fresh r1 =
        { header := [], status := some 401,
          body := lit "credential pair presented matches no known user",
          cookies := [], redirect := none } ∧
      validateHandler compare pa ResponseWriter.fresh r2 =
        { header := [], status := some 401,
          body := lit "credential pair presented matches no known user",
          cookies := [], redirect := none } := by
  have e1 : ∀ w, validateHandler compare pa w r1 = (w.WriteHeader StatusUnauthorized).Write
      (lit "credential pair presented matches no known user") := by
    intro w
    simp only [validateHandler, authenticate_eq,
      firstMatch_none_of_absent pa.Users _ habsent, lit_empty, if_true]
  have e2 : ∀ w, validateHandler compare pa w r2 = (w.WriteHeader StatusUnauthorized).Write
      (lit "credential pair presented matches no known user") := by
    intro w
    simp only [validateHandler, authenticate_eq, hfirst, hmismatch, lit_empty, if_true]
  exact ⟨by rw [e1, e2], e1 w, by rw [e1]; rfl, by rw [e2]; rfl⟩

/-- C2 at a concrete input: an unknown user and a wrong password for `alice`. -/
theorem login_failure_indistinguishable_witness :
    validateHandler exampleCompare (exampleStore [configured (lit "alice") exampleHash])
        ResponseWriter.fresh (exampleRequest (lit "mallory") (lit "abc123xyz") (lit "") []) =
      validateHandler exampleCompare (exampleStore [configured (lit "alice") exampleHash])
        ResponseWriter.fresh (exampleRequest (lit "alice") (lit "wrong") (lit "") []) ∧
      validateHandler exampleCompare (exampleStore [configured (lit "alice") exampleHash])
        ResponseWriter.fresh (exampleRequest (lit "mallory") (lit "abc123xyz") (lit "") []) =
        (ResponseWriter.fresh.WriteHeader StatusUnauthorized).Write
          (lit "credential pair presented matches no known user") ∧
      validateHandler exampleCompare (exampleStore [configured (lit "alice") exampleHash])
        ResponseWriter.fresh (exampleRequest (lit "mallory") (lit "abc123xyz") (lit "") []) =
        { header := [], status := some 401,
          body := lit "credential pair presented matches no known user",
          cookies := [], redirect := none } ∧
      validateHandler exampleCompare (exampleStore [configured (lit "alice") exampleHash])
        ResponseWriter.fresh (exampleRequest (lit "alice") (lit "wrong") (lit "") []) =
        { header := [], status := some 401,
          body := lit "credential pair presented matches no known user",
          cookies := [], redirect := none } :=
  login_failure_indistinguishable exampleCompare
    (exampleStore [configured (lit "alice") exampleHash]) ResponseWriter.fresh
    (exampleRequest (lit "mallory") (lit "abc123xyz") (lit "") [])
    (exampleRequest (lit "alice") (lit "wrong") (lit "") [])
    ⟨lit "alice", exampleHash,
      sessionToken exampleSum256 (lit "alice") (lit "devbox") exampleHash⟩
    (by decide) (by decide) (by decide)

/-! ## C5: a verification fault must not show the verifier to the client -/

/-- What `validateHandler` writes when the record `authenticate` consults for the submitted
username exists and the comparison fails with an error `err` that is not a mismatch: status
500, no cookie, and as body the text of the error of `authenticate`, into which
`fmt.Errorf` has formatted the username and the stored verifier. -/
theorem comparison_fault_response (compare : GoString → GoString → CompareResult)
    (pa : PlaceholderAuth) (w : ResponseWriter) (r : Request) (user : User) (err : GoError)
    (hfirst : firstMatch pa.Users (r.FormValue (lit "username")) = some user)
    (hfault : compare user.PasswordHash (r.FormValue (lit "password")) = .failed err) :
    validateHandler compare pa w r =
        (w.WriteHeader StatusInternalServerError).Write (comparisonError user err).Error ∧
      validateHandler compare pa ResponseWriter.fresh r =
        { header := [], status := some 500,
          body := lit "error comparing " ++ user.Username ++
            lit "'s password to the stored one (" ++ user.PasswordHash ++ lit "): " ++
            err.Error,
          cookies := [], redirect := none } ∧
      user.PasswordHash <:+: (validateHandler compare pa ResponseWriter.fresh r).body := by
  have e : ∀ w, validateHandler compare pa w r =
      (w.WriteHeader StatusInternalServerError).Write (comparisonError user err).Error := by
    intro w
    simp only [validateHandler, authenticate_eq, hfirst, hfault]
  refine ⟨e w, by rw [e]; rfl, ?_⟩
  rw [e]
  exact ⟨lit "error comparing " ++ user.Username ++ lit "'s password to the stored one (",
    lit "): " ++ err.Error, by simp [fresh_WriteHeader_Write, comparisonError, GoError.Error]⟩

/-- The other fault path of the package: when `r.Cookie` fails with an error that is not
`http.ErrNoCookie`, `Wrap` answers with status 500 and a fixed body; the text of the error
is not sent to the client and the downstream handler is not called. -/
theorem Wrap_fault_generic_body {σ : Type} (page : PlaceholderAuth → GoString)
    (pa : PlaceholderAuth) (next : HandlerFunc σ) (s : σ) (r : Request) (err : GoError)
    (hcookie : r.Cookie pa.CookieName = .failed err) :
    Wrap page pa next s ResponseWriter.fresh r =
      (s, { header := [], status := some 500, body := lit "cookie monster ruined your day",
            cookies := [], redirect := none }) := by
  simp only [Wrap, hcookie]
  rfl

/-- C5, the code at the failing input.  The claim asks that a verification fault is
answered with status 500 and no cookie, and that the body does not contain the stored
verifier.  The configuration file gives `alice` a verifier of 60 bytes `x`;
`loadConfiguration` accepts it (it only checks the length).  A login as `alice` makes the
comparison fail with an error that is not a mismatch; `validateHandler` answers with status
500 and no cookie, but the body it sends to the client contains the 60 bytes of the stored
verifier, against the claim. -/
theorem comparison_fault_leaks_verifier :
    (loadConfiguration exampleSum256
        (exampleSystem (exampleConfig [configured (lit "alice") (List.replicate 60 120)]))
        (lit "example.json")).2 = none ∧
      exampleCompare (List.replicate 60 120) (lit "guess") =
        .failed (.plain (lit "crypto/bcrypt: bcrypt hashes must start with $")) ∧
      (validateHandler exampleCompare
        (exampleStore [configured (lit "alice") (List.replicate 60 120)]) ResponseWriter.fresh
        (exampleRequest (lit "alice") (lit "guess") (lit "") [])).status = some 500 ∧
      (validateHandler exampleCompare
        (exampleStore [configured (lit "alice") (List.replicate 60 120)]) ResponseWriter.fresh
        (exampleRequest (lit "alice") (lit "guess") (lit "") [])).cookies = [] ∧
      List.replicate 60 120 <:+: (validateHandler exampleCompare
        (exampleStore [configured (lit "alice") (List.replicate 60 120)]) ResponseWriter.fresh
        (exampleRequest (lit "alice") (lit "guess") (lit "") [])).body := by
  refine ⟨by decide, by decide, by decide, by decide, ?_⟩
  exact ⟨lit "error comparing alice's password to the stored one (",
    lit "): crypto/bcrypt: bcrypt hashes must start with $", by decide⟩

/-! ## C7: the response to a successful login -/

/-- C7, as the code behaves.  When `authenticate` returns a non-empty token without error,
`validateHandler` sets exactly one cookie and redirects with status 303 to the Referer of
the request, or to "/" when the Referer is empty.  The cookie has the configured name, the
token as value, `HttpOnly` set, `SameSite` Lax, and `MaxAge = int(lifetime.Seconds())`, the
`float64` value `float64(d / 1e9) + float64(d % 1e9) / 1e9` converted to an integer.  That
is the nanosecond count divided by `10^9`, truncated toward zero, whenever the configured
lifetime is shorter than `2^24` seconds (about 194 days) in absolute value, or is a whole
number of seconds. -/
theorem successful_login_response (compare : GoString → GoString → CompareResult)
    (pa : PlaceholderAuth) (w : ResponseWriter) (r : Request) (token : GoString)
    (h : authenticate compare pa (r.FormValue (lit "username"))
      (r.FormValue (lit "password")) = (token, none))
    (hne : token ≠ []) :
    validateHandler compare pa w r =
        (w.SetCookie
          { Name := pa.CookieName, Value := token, Path := [], Domain := [],
            MaxAge := goInt (Duration.Seconds pa.CookieLifetime.Duration),
            Secure := false, HttpOnly := true, SameSite := .SameSiteLaxMode }).Redirect
          (if r.Referer = [] then lit "/" else r.Referer) 303 ∧
      validateHandler compare pa ResponseWriter.fresh r =
        { header := [], status := some 303, body := [],
          cookies := [
            { Name := pa.CookieName, Value := token, Path := [], Domain := [],
              MaxAge := goInt (Duration.Seconds pa.CookieLifetime.Duration),
              Secure := false, HttpOnly := true, SameSite := .SameSiteLaxMode }],
          redirect := some (if r.Referer = [] then lit "/" else r.Referer, 303) } ∧
      (|pa.CookieLifetime.Duration| < 2 ^ 24 * 1000000000 ∨
          (1000000000 ∣ pa.CookieLifetime.Duration ∧ -2 ^ 63 ≤ pa.CookieLifetime.Duration ∧
            pa.CookieLifetime.Duration < 2 ^ 63) →
        goInt (Duration.Seconds pa.CookieLifetime.Duration) =
          Int.tdiv pa.CookieLifetime.Duration 1000000000) := by
  have e : ∀ w, validateHandler compare pa w r =
      (w.SetCookie
        { Name := pa.CookieName, Value := token, Path := [], Domain := [],
          MaxAge := goInt (Duration.Seconds pa.CookieLifetime.Duration),
          Secure := false, HttpOnly := true, SameSite := .SameSiteLaxMode }).Redirect
        (if r.Referer = [] then lit "/" else r.Referer) 303 := by
    intro w
    simp only [validateHandler, h, lit_empty, hne, if_false, createCookie, returnPath,
      StatusSeeOther]
  refine ⟨e w, by rw [e]; rfl, ?_⟩
  rintro (hshort | ⟨⟨s, hs⟩, hlo, hhi⟩)
  · exact Seconds_trunc _ hshort
  · have habs : |s| < 2 ^ 53 := by
      rw [abs_lt]
      constructor <;> omega
    have hd : pa.CookieLifetime.Duration = s * Second := by rw [hs, Second]; ring
    rw [hd, Seconds_whole s habs, Second, Int.mul_tdiv_cancel s (by decide)]

/-- C7 at a concrete input: `alice` logs in with the default lifetime of 336 hours. -/
theorem successful_login_response_witness :
    validateHandler exampleCompare (exampleStore [configured (lit "alice") exampleHash])
        ResponseWriter.fresh
        (exampleRequest (lit "alice") (lit "abc123xyz") (lit "http://devbox/") []) =
        { header := [], status := some 303, body := [],
          cookies := [
            { Name := lit "authentimication",
              Value := sessionToken exampleSum256 (lit "alice") (lit "devbox") exampleHash,
              Path := [], Domain := [], MaxAge := 1209600,
              Secure := false, HttpOnly := true, SameSite := .SameSiteLaxMode }],
          redirect := some (lit "http://devbox/", 303) } := by
  have h := successful_login_response exampleCompare
    (exampleStore [configured (lit "alice") exampleHash]) ResponseWriter.fresh
    (exampleRequest (lit "alice") (lit "abc123xyz") (lit "http://devbox/") [])
    (sessionToken exampleSum256 (lit "alice") (lit "devbox") exampleHash)
    (by decide) (by decide)
  have hs := h.2.2 (Or.inl (by decide))
  rw [h.2.1, hs]
  decide

/-- C7 fails as stated for a long lifetime that is not a whole number of seconds.  With
`"cookie_lifetime": "16777216.999999999s"` (`2^24` seconds and 999999999 ns) the lifetime is
16777216999999999 ns, whose quotient by `10^9` is 16777216, and a successful login sets a
cookie with Max-Age 16777217: `float64(16777216) + float64(999999999) / 1e9` rounds to
`16777217.0`. -/
theorem maxAge_rounds_up :
    (loadConfiguration exampleSum256 (exampleSystem longLivedConfig) (lit "example.json")).2 =
        none ∧
      authenticate exampleCompare
        (loadConfiguration exampleSum256 (exampleSystem longLivedConfig) (lit "example.json")).1
        (lit "alice") (lit "abc123xyz") =
        (sessionToken exampleSum256 (lit "alice") (lit "devbox") exampleHash, none) ∧
      sessionToken exampleSum256 (lit "alice") (lit "devbox") exampleHash ≠ [] ∧
      ((validateHandler exampleCompare
        (loadConfiguration exampleSum256 (exampleSystem longLivedConfig) (lit "example.json")).1
        ResponseWriter.fresh
        (exampleRequest (lit "alice") (lit "abc123xyz") (lit "") [])).cookies.map
          Cookie.MaxAge) = [16777217] ∧
      Int.tdiv (loadConfiguration exampleSum256 (exampleSystem longLivedConfig)
        (lit "example.json")).1.CookieLifetime.Duration 1000000000 = 16777216 := by
  refine ⟨by decide, by decide, by decide, by decide!, by decide⟩

/-! ## C6: voiding is unconditional -/

/-- C6. For every configuration, writer state and request, `voidHandler` issues a cookie
whose name is the configured cookie name, whose value is empty and whose Max-Age is `-5`
(with `HttpOnly` and `SameSite` Lax), and redirects with status 303 to the Referer of the
request, or to "/" when the Referer is empty.  Nothing else of the configuration or of the
request enters: two configurations with the same cookie name (whatever their users) and two
requests with the same Referer (whatever cookies and form values they carry) get the same
response, so a second call answers as the first one did. -/
theorem voidHandler_unconditional (pa : PlaceholderAuth) (w : ResponseWriter) (r : Request) :
    voidHandler pa w r =
        (w.SetCookie
          { Name := pa.CookieName, Value := [], Path := [], Domain := [], MaxAge := -5,
            Secure := false, HttpOnly := true, SameSite := .SameSiteLaxMode }).Redirect
          (if r.Referer = [] then lit "/" else r.Referer) 303 ∧
      voidHandler pa ResponseWriter.fresh r =
        { header := [], status := some 303, body := [],
          cookies := [
            { Name := pa.CookieName, Value := [], Path := [], Domain := [], MaxAge := -5,
              Secure := false, HttpOnly := true, SameSite := .SameSiteLaxMode }],
          redirect := some (if r.Referer = [] then lit "/" else r.Referer, 303) } ∧
      ∀ (pa' : PlaceholderAuth) (r' : Request), pa'.CookieName = pa.CookieName →
        r'.Referer = r.Referer → voidHandler pa' w r' = voidHandler pa w r := by
  have e : ∀ (pa : PlaceholderAuth) (w : ResponseWriter) (r : Request), voidHandler pa w r =
      (w.SetCookie
        { Name := pa.CookieName, Value := [], Path := [], Domain := [], MaxAge := -5,
          Secure := false, HttpOnly := true, SameSite := .SameSiteLaxMode }).Redirect
        (if r.Referer = [] then lit "/" else r.Referer) 303 := by
    intro pa w r
    simp only [voidHandler, createCookie, voidLifetime_seconds, returnPath, lit_empty,
      StatusSeeOther]
  refine ⟨e pa w r, by rw [e]; rfl, ?_⟩
  intro pa' r' hname href
  rw [e, e, hname, href]

/-! ## C3: the gate answers a missing and an unknown cookie alike -/

/-- C3. For every configuration, downstream handler `next` (with any state `s` of its own),
writer state and pair of requests, where `r1` carries no session cookie and the session
cookie of `r2` has a value that is the token of no user of the store: the handler returned
by `Wrap` answers both in the same way, with `SendAuthForm` (status 401, the header
`Content-Type: text/html`, the rendered login form as body), and `next` is not called: its
state is unchanged and the response does not depend on it. -/
theorem gate_challenge_indistinguishable {σ : Type} (page : PlaceholderAuth → GoString)
    (pa : PlaceholderAuth) (next : HandlerFunc σ) (s : σ) (w : ResponseWriter)
    (r1 r2 : Request) (token : GoString)
    (h1 : r1.Cookie pa.CookieName = .ErrNoCookie)
    (h2 : r2.Cookie pa.CookieName = .found token)
    (h3 : ∀ u ∈ pa.Users, u.Token ≠ token) :
    Wrap page pa next s w r1 = Wrap page pa next s w r2 ∧
      Wrap page pa next s w r1 = (s, SendAuthForm page pa w) ∧
      Wrap page pa next s w r2 = (s, SendAuthForm page pa w) ∧
      SendAuthForm page pa ResponseWriter.fresh =
        { header := [(lit "Content-Type", lit "text/html")], status := some 401,
          body := page pa, cookies := [], redirect := none } := by
  have e1 : Wrap page pa next s w r1 = (s, SendAuthForm page pa w) := by
    simp only [Wrap, h1]
  have e2 : Wrap page pa next s w r2 = (s, SendAuthForm page pa w) := by
    simp only [Wrap, h2, validate, validateLoop_absent token pa.Users h3, lit_empty, if_true]
  exact ⟨by rw [e1, e2], e1, e2, rfl⟩

/-- C3 at a concrete input: no cookie, and a cookie with the value `guess`. -/
theorem gate_challenge_indistinguishable_witness :
    Wrap examplePage (exampleStore [configured (lit "alice") exampleHash]) exampleNext 0
        ResponseWriter.fresh (exampleRequest (lit "") (lit "") (lit "") []) =
      Wrap examplePage (exampleStore [configured (lit "alice") exampleHash]) exampleNext 0
        ResponseWriter.fresh
        (exampleRequest (lit "") (lit "") (lit "") [(lit "authentimication", lit "guess")]) ∧
      Wrap examplePage (exampleStore [configured (lit "alice") exampleHash]) exampleNext 0
        ResponseWriter.fresh (exampleRequest (lit "") (lit "") (lit "") []) =
        (0, SendAuthForm examplePage (exampleStore [configured (lit "alice") exampleHash])
          ResponseWriter.fresh) ∧
      Wrap examplePage (exampleStore [configured (lit "alice") exampleHash]) exampleNext 0
        ResponseWriter.fresh
        (exampleRequest (lit "") (lit "") (lit "") [(lit "authentimication", lit "guess")]) =
        (0, SendAuthForm examplePage (exampleStore [configured (lit "alice") exampleHash])
          ResponseWriter.fresh) ∧
      SendAuthForm examplePage (exampleStore [configured (lit "alice") exampleHash])
        ResponseWriter.fresh =
        { header := [(lit "Content-Type", lit "text/html")], status := some 401,
          body := examplePage (exampleStore [configured (lit "alice") exampleHash]),
          cookies := [], redirect := none } :=
  gate_challenge_indistinguishable examplePage
    (exampleStore [configured (lit "alice") exampleHash]) exampleNext 0 ResponseWriter.fresh
    (exampleRequest (lit "") (lit "") (lit "") [])
    (exampleRequest (lit "") (lit "") (lit "") [(lit "authentimication", lit "guess")])
    (lit "guess") (by decide) (by decide) (by decide)

/-! ## C8: token derivation -/

/-- C8. In the store of a successful `loadConfiguration` the token of every user is the
hexadecimal form of `sha256(username ++ host ++ verifier)`; it depends on that triple only:
a user of any other successfully loaded store with the same username, host name and
verifier has the same token.  Changing exactly one of username, host name and verifier
changes the hashed string, and changes the token unless the two hashed strings have the same
digest. -/
theorem token_derivation (sum256 : GoString → Digest) (sys : System) (filename : GoString)
    (pa : PlaceholderAuth) (hload : loadConfiguration sum256 sys filename = (pa, none)) :
    (∀ u ∈ pa.Users,
        u.Token = hexEncode (sum256 (u.Username ++ sys.Hostname.1 ++ u.PasswordHash)).bytes) ∧
      (∀ (sys' : System) (filename' : GoString) (pa' : PlaceholderAuth),
        loadConfiguration sum256 sys' filename' = (pa', none) →
        ∀ u ∈ pa.Users, ∀ u' ∈ pa'.Users, u.Username = u'.Username →
          sys.Hostname.1 = sys'.Hostname.1 → u.PasswordHash = u'.PasswordHash →
          u.Token = u'.Token) ∧
      (∀ u h v u' : GoString, u ≠ u' → u ++ h ++ v ≠ u' ++ h ++ v ∧
        (sum256 (u ++ h ++ v) ≠ sum256 (u' ++ h ++ v) →
          sessionToken sum256 u h v ≠ sessionToken sum256 u' h v)) ∧
      (∀ u h v h' : GoString, h ≠ h' → u ++ h ++ v ≠ u ++ h' ++ v ∧
        (sum256 (u ++ h ++ v) ≠ sum256 (u ++ h' ++ v) →
          sessionToken sum256 u h v ≠ sessionToken sum256 u h' v)) ∧
      (∀ u h v v' : GoString, v ≠ v' → u ++ h ++ v ≠ u ++ h ++ v' ∧
        (sum256 (u ++ h ++ v) ≠ sum256 (u ++ h ++ v') →
          sessionToken sum256 u h v ≠ sessionToken sum256 u h v')) := by
  refine ⟨fun u hu => (loadConfiguration_store sum256 sys filename pa hload u hu).2, ?_, ?_, ?_,
    ?_⟩
  · intro sys' filename' pa' hload' u hu u' hu' hname hhost hhash
    rw [(loadConfiguration_store sum256 sys filename pa hload u hu).2,
      (loadConfiguration_store sum256 sys' filename' pa' hload' u' hu').2, hname, hhost, hhash]
  · intro u h v u' hne
    refine ⟨fun hEq => hne ?_, fun hd hEq => hd ((sessionToken_eq_iff _ _ _ _ _ _ _).1 hEq)⟩
    exact List.append_cancel_right (List.append_cancel_right hEq)
  · intro u h v h' hne
    refine ⟨fun hEq => hne ?_, fun hd hEq => hd ((sessionToken_eq_iff _ _ _ _ _ _ _).1 hEq)⟩
    exact List.append_cancel_left (List.append_cancel_right hEq)
  · intro u h v v' hne
    refine ⟨fun hEq => hne ?_, fun hd hEq => hd ((sessionToken_eq_iff _ _ _ _ _ _ _).1 hEq)⟩
    exact List.append_cancel_left hEq

/-- C8 at a concrete input: the store loaded for `alice` and `bob`; its first part gives the
token of `alice`. -/
theorem token_derivation_witness :
    (∀ u ∈ (exampleStore [configured (lit "alice") exampleHash,
        configured (lit "bob") exampleHash]).Users,
        u.Token = hexEncode (exampleSum256 (u.Username ++ lit "devbox" ++
          u.PasswordHash)).bytes) ∧
      (exampleStore [configured (lit "alice") exampleHash,
        configured (lit "bob") exampleHash]).Users.map User.Token =
        [hexEncode (exampleSum256 (lit "alice" ++ lit "devbox" ++ exampleHash)).bytes,
          hexEncode (exampleSum256 (lit "bob" ++ lit "devbox" ++ exampleHash)).bytes] :=
  ⟨(token_derivation exampleSum256
      (exampleSystem (exampleConfig [configured (lit "alice") exampleHash,
        configured (lit "bob") exampleHash])) (lit "example.json")
      (exampleStore [configured (lit "alice") exampleHash, configured (lit "bob") exampleHash])
      (by decide)).1, by decide⟩

/-! ## C9: tokens are unique across users -/

/-- C9. In the store of a successful `loadConfiguration` (every verifier has 60 bytes) two
user records have the same hashed string `username ++ host ++ verifier` only if they have
the same username and the same verifier.  Consequently, when the usernames of the store are
pairwise distinct and `sha256` does not collide on the hashed strings of the store, the
tokens of the store are pairwise distinct and `validate` maps the token of every user to the
username of that user. -/
theorem tokens_unique (sum256 : GoString → Digest) (sys : System) (filename : GoString)
    (pa : PlaceholderAuth) (hload : loadConfiguration sum256 sys filename = (pa, none)) :
    (∀ u ∈ pa.Users, u.PasswordHash.length = 60) ∧
      (∀ a ∈ pa.Users, ∀ b ∈ pa.Users,
        a.Username ++ sys.Hostname.1 ++ a.PasswordHash =
          b.Username ++ sys.Hostname.1 ++ b.PasswordHash →
        a.Username = b.Username ∧ a.PasswordHash = b.PasswordHash) ∧
      ((pa.Users.map User.Username).Nodup →
        (∀ a ∈ pa.Users, ∀ b ∈ pa.Users,
          sum256 (a.Username ++ sys.Hostname.1 ++ a.PasswordHash) =
            sum256 (b.Username ++ sys.Hostname.1 ++ b.PasswordHash) →
          a.Username ++ sys.Hostname.1 ++ a.PasswordHash =
            b.Username ++ sys.Hostname.1 ++ b.PasswordHash) →
        (pa.Users.map User.Token).Nodup ∧
          ∀ u ∈ pa.Users, validate pa u.Token = u.Username) := by
  have hstore := loadConfiguration_store sum256 sys filename pa hload
  refine ⟨fun u hu => (hstore u hu).1, ?_, ?_⟩
  · intro a ha b hb hEq
    exact hashedString_injective _ a b (by rw [(hstore a ha).1, (hstore b hb).1]) hEq
  · intro hnodup hinj
    have hsame := loaded_token_determines_username sum256 sys filename pa hload hinj
    constructor
    · refine List.Nodup.map_on ?_ (List.Nodup.of_map _ hnodup)
      intro a ha b hb htok
      exact List.inj_on_of_nodup_map hnodup ha hb (hsame a b ha hb htok).1
    · intro u hu
      exact validateLoop_of_mem pa.Users u hu (fun x hx htok => (hsame x u hx hu htok).1)

/-- C9 at a concrete input: the store loaded for `alice` and `bob`, whose hashed strings
have different lengths and so different digests under `exampleSum256`. -/
theorem tokens_unique_witness :
    ((exampleStore [configured (lit "alice") exampleHash,
        configured (lit "bob") exampleHash]).Users.map User.Token).Nodup ∧
      ∀ u ∈ (exampleStore [configured (lit "alice") exampleHash,
          configured (lit "bob") exampleHash]).Users,
        validate (exampleStore [configured (lit "alice") exampleHash,
          configured (lit "bob") exampleHash]) u.Token = u.Username :=
  (tokens_unique exampleSum256
    (exampleSystem (exampleConfig [configured (lit "alice") exampleHash,
      configured (lit "bob") exampleHash])) (lit "example.json")
    (exampleStore [configured (lit "alice") exampleHash, configured (lit "bob") exampleHash])
    (by decide)).2.2 (by decide) (by decide)

/-! ## C1: login, then access -/

/-- Why the round trip needs a non-empty username: whatever the digest, the
comparison, the page and the downstream handler are, a token whose owners all have the
username "" gets the login challenge. -/
theorem Wrap_challenges_empty_username {σ : Type} (page : PlaceholderAuth → GoString)
    (pa : PlaceholderAuth) (next : HandlerFunc σ) (s : σ) (w : ResponseWriter) (r : Request)
    (token : GoString) (hcookie : r.Cookie pa.CookieName = .found token)
    (hempty : ∀ u ∈ pa.Users, u.Token = token → u.Username = []) :
    Wrap page pa next s w r = (s, SendAuthForm page pa w) := by
  have hval : ∀ users : List User, (∀ u ∈ users, u.Token = token → u.Username = []) →
      validateLoop token users = [] := by
    intro users
    induction users with
    | nil => intro _; simp [validateLoop, lit_empty]
    | cons x rest ih =>
      intro h
      by_cases hx : x.Token = token
      · simp only [validateLoop, hx, if_true]
        exact h x (List.mem_cons_self _ _) hx
      · simp only [validateLoop, hx, if_false]
        exact ih (fun u hu => h u (List.mem_cons_of_mem _ hu))
  simp only [Wrap, hcookie, validate, hval pa.Users hempty, lit_empty, if_true]

/-- Why the round trip needs a digest without collisions: `exampleSum256` gives the
hashed strings of `alice` and `carol` the same digest, both get the same token, and
`validate` answers `alice` for the token of `carol`. -/
theorem colliding_digest_confuses_users :
    validate (exampleStore [configured (lit "alice") exampleHash,
        configured (lit "carol") exampleHash])
      (hexEncode (exampleSum256 (lit "carol" ++ lit "devbox" ++ exampleHash)).bytes) =
      lit "alice" := by
  decide

end authplaceholder
